import Mathlib

/-!
# Stanford C++ library autograder: timed test execution and style checking

A shallow embedding of `src/autograder/threading.cpp` (the pthread branch and the
Mac OS X emulation of `pthread_timedjoin_np`) and of `src/autograder/stylecheck.cpp`.

Conventions of the embedding.

* Library helpers that this code calls but does not define (`integerToString`, `error`,
  `exceptions::printStackTrace`, the `xmlutils` attribute readers, the regex matchers) are
  parameters: theorems hold for every behaviour of them.
* Calls with an outside effect (`pthread_create`, `setFailDetails`, ...) are recorded as
  events, in program order, in one log for the calling context and one for the spawned thread.
* What the operating system decides (the clock, the result of a timed wait or join, how far a
  thread got before it was cancelled) is an explicit input.
* The slot that `autograder::setFailDetails` writes is not part of these files; where a
  statement needs it, it is the write-once slot the design describes (`ResultSlot`).
* C `int`, `long`, `time_t` values are `Int`; the `unsigned long` arithmetic of the deadline
  computation wraps at `2 ^ 64` explicitly.
-/

namespace Autograder

/-! ## Values a test body can throw -/

/-- An IEEE-754 `double`, kept as its 64-bit pattern; it is only ever handed to `realToString`. -/
abbrev Double := Nat

/-- A value thrown out of `TestRealBody`, by the C++ type the handlers of
`runTestInItsOwnThread` match on. `otherType` stands for a value of any type that none of the
nine handlers matches (`float`, `unsigned int`, `short`, a class not derived from
`std::exception`, ...). -/
inductive Thrown where
  | ErrorException (what : String)
  | std_exception (what : String)
  | std_string (str : String)
  | c_string (str : String)
  | int (n : Int)
  | long (l : Int)
  | char (c : Char)
  | bool (b : Bool)
  | double (d : Double)
  | otherType (typeName : String)
  deriving DecidableEq

/-- The library helpers called by `threading.cpp` whose definitions live elsewhere. -/
structure Helpers where
  integerToString : Int → String
  longToString : Int → String
  charToString : Char → String
  boolToString : Bool → String
  realToString : Double → String
  /-- Text that `exceptions::printStackTrace(out)` writes to `out`. -/
  printStackTrace : String
  /-- Behaviour of `error(msg)`: `none` when the call returns, `some v` when it throws `v`. -/
  error : String → Option Thrown

/-! ## Recorded effects -/

/-- The members of `autograder::UnitTestType` that the source uses. -/
inductive UnitTestType where
  | TEST_FAIL
  | TEST_EXCEPTION
  | TEST_STYLE_CHECK
  deriving DecidableEq

/-- The two-argument form `autograder::UnitTestDetails(type, message)`. -/
structure UnitTestDetails where
  testType : UnitTestType
  message : String
  deriving DecidableEq

/-- An externally visible call made while a test runs. -/
inductive Event where
  | pthread_create
  | TestRealBody
  | setTestResult (testName result : String)
  | setFailDetails (deets : UnitTestDetails)
  | pthread_exit
  | pthread_cancel
  | error (msg : String)
  deriving DecidableEq

/-! ## Tests -/

/-- How a call of `TestRealBody` ends. -/
inductive BodyEnd where
  | returns
  | throws (v : Thrown)
  | neverReturns
  deriving DecidableEq

/-- Observable behaviour of a test body: the failure details it records itself through
`setFailDetails` (a failed assertion records its details and the body returns), then how
the call ends. -/
structure TestBody where
  recorded : List UnitTestDetails
  ending : BodyEnd
  deriving DecidableEq

/-- The parts of `autograder::AutograderTest` that `threading.cpp` reads. -/
structure AutograderTest where
  getName : String
  getTestTimeout : Int
  TestRealBody : TestBody
  deriving DecidableEq

/-- Events of one call `test->TestRealBody()`. -/
def bodyEvents (test : AutograderTest) : List Event :=
  Event.TestRealBody :: test.TestRealBody.recorded.map Event.setFailDetails

def TIMEOUT_ERROR_MESSAGE : String := "test timed out! possible infinite loop"

def EXCEPTION_ERROR_MESSAGE : String := "test threw an exception!"

/-- The value of `ETIMEDOUT` that the source defines (`#define ETIMEDOUT 60`). -/
def ETIMEDOUT : Int := 60

/-! ## The emulated `pthread_timedjoin_np` -/

/-- What the scheduler decides during one call of the emulated `pthread_timedjoin_np`.

The caller locks `args.mtx` before it creates the waiter and never unlocks it; the mutex is free
only while the caller is inside `pthread_cond_timedwait`. The waiter first blocks in
`pthread_join(args->td, ...)`, then has to get through `pthread_mutex_lock` and
`pthread_mutex_unlock`, then runs `args->joined = 1`, signals and returns. -/
structure JoinSchedule where
  /-- Result of `pthread_create(&tmp, 0, waiter, &args)`. -/
  createResult : Int
  /-- Result of the `i`-th call of `pthread_cond_timedwait` (counted from 0). -/
  waitResult : Nat → Int
  /-- The number of the wait during which the waiter gets through `pthread_mutex_lock` and
  `pthread_mutex_unlock`, if the loop runs that long; `none` when it does so during no wait. -/
  mutexPassedDuring : Option Nat
  /-- Having passed the mutex during wait `d`, the waiter runs `args->joined = 1` before the
  loop condition after wait `d + joinedDelay` is evaluated, and not before an earlier one. -/
  joinedDelay : Nat
  /-- Where `pthread_cancel(tmp)` finds a waiter that has not passed the mutex: `true` when it
  is still blocked in `pthread_join(args->td, ...)`, a cancellation point, and is cancelled
  there; `false` when it has left that call and blocks in `pthread_mutex_lock`, which is not a
  cancellation point, on the mutex the caller holds. -/
  cancelledInJoin : Bool

/-- Value of `args.joined` when the loop condition after wait `i` reads it. The flag starts at 0
(the initializer of `args` names only `td` and `res`) and only the waiter sets it. -/
def JoinSchedule.joined (s : JoinSchedule) (i : Nat) : Bool :=
  match s.mutexPassedDuring with
  | none => false
  | some d => decide (d + s.joinedDelay ≤ i)

/-- The waiter has got through the mutex by the end of wait `i`. -/
def JoinSchedule.mutexPassedBy (s : JoinSchedule) (i : Nat) : Bool :=
  match s.mutexPassedDuring with
  | none => false
  | some d => decide (d ≤ i)

/-- The loop `do { ret = pthread_cond_timedwait(...); } while (!args.joined && ret != ETIMEDOUT);`
started at wait number `i`. Gives the number of the last wait and its result, or `none` when
`fuel` iterations did not end the loop. -/
def waitLoop (s : JoinSchedule) : Nat → Nat → Option (Nat × Int)
  | 0, _ => none
  | fuel + 1, i =>
    let ret := s.waitResult i
    if (!s.joined i && ret != ETIMEDOUT) then waitLoop s fuel (i + 1) else some (i, ret)

/-- How the waiter thread stands once `pthread_cancel(tmp)` has been sent. -/
inductive WaiterEnd where
  /-- It had passed the mutex: nothing that is left of it can block or be cancelled, so it
  runs `args->joined = 1`, signals and ends. -/
  | finished
  /-- It was cancelled inside `pthread_join(args->td, ...)`. -/
  | cancelled
  /-- It waits in `pthread_mutex_lock` for a mutex that is never unlocked. -/
  | blocked
  deriving DecidableEq

/-- The waiter after the loop ended with wait `i` and `pthread_cancel(tmp)` was sent. -/
def waiterAfterCancel (s : JoinSchedule) (i : Nat) : WaiterEnd :=
  if s.mutexPassedBy i then .finished
  else if s.cancelledInJoin then .cancelled
  else .blocked

/-- Value of `args.joined` once the waiter has ended: it is set exactly when the waiter ran
to its end. -/
def WaiterEnd.joined : WaiterEnd → Bool
  | .finished => true
  | .cancelled => false
  | .blocked => false

/-- How a call of the emulated `pthread_timedjoin_np` ends. -/
inductive JoinEnd where
  | returns (r : Int)
  /-- The caller stays in `pthread_join(tmp, 0)` for ever. -/
  | neverReturns
  deriving DecidableEq

/-- The emulation of `pthread_timedjoin_np` for Mac OS X: `pthread_create`, the wait loop,
`pthread_cancel(tmp); pthread_join(tmp, 0);` with `args.mtx` still locked, and
`return args.joined ? 0 : ETIMEDOUT;`. The join comes back only when the waiter has ended; it
does not come back when the waiter is blocked on the mutex. The results of the `init` and
`destroy` calls are not looked at by the source. `none` when `fuel` iterations did not end the
loop. -/
def pthread_timedjoin_np (s : JoinSchedule) (fuel : Nat) : Option JoinEnd :=
  if s.createResult ≠ 0 then some (.returns (-1))
  else
    match waitLoop s fuel 0 with
    | none => none
    | some (i, _) =>
      let waiter := waiterAfterCancel s i
      if waiter = .blocked then some .neverReturns
      else some (.returns (if waiter.joined then 0 else ETIMEDOUT))

/-! ## The thread function -/

/-- The handler chain of `runTestInItsOwnThread`: for a thrown value, the `kind` and `desc`
arguments of the `failWithException` call of the first matching handler, or `none` when no
handler matches. -/
def catchChain (h : Helpers) : Thrown → Option (String × String)
  | .ErrorException what => some ("An ErrorException", what)
  | .std_exception what => some ("A C++ exception", what)
  | .std_string str => some ("A string exception", str)
  | .c_string str => some ("A string exception", str)
  | .int n => some ("An int exception", h.integerToString n)
  | .long l => some ("A long exception", h.longToString l)
  | .char c => some ("A char exception", h.charToString c)
  | .bool b => some ("A bool exception", h.boolToString b)
  | .double d => some ("A double exception", h.realToString d)
  | .otherType _ => none

/-- The text built in `failWithException`. -/
def errorMessage (h : Helpers) (kind desc : String) : String :=
  kind ++ " was thrown during test execution:" ++ "\n" ++ desc ++ "\n" ++ h.printStackTrace

/-- Events of `failWithException(test, kind, desc)`; the call ends in `pthread_exit`. -/
def failWithException (h : Helpers) (test : AutograderTest) (kind desc : String) : List Event :=
  [Event.setTestResult test.getName "fail",
   Event.setFailDetails ⟨UnitTestType.TEST_EXCEPTION, errorMessage h kind desc⟩,
   Event.pthread_exit]

/-- How the thread function ends. -/
inductive ThreadEnd where
  /-- Reached `return (void*) NULL`. -/
  | returned
  /-- Left through `pthread_exit` in `failWithException`. -/
  | exited
  /-- No handler matched: the thrown value leaves the thread function. -/
  | escaped (v : Thrown)
  /-- The body never returns. -/
  | running
  deriving DecidableEq

/-- Log and end of the thread function `runTestInItsOwnThread` when nothing cuts it short. -/
def runTestInItsOwnThread (h : Helpers) (test : AutograderTest) : List Event × ThreadEnd :=
  match test.TestRealBody.ending with
  | .returns => (bodyEvents test, .returned)
  | .throws v =>
    match catchChain h v with
    | some (kind, desc) => (bodyEvents test ++ failWithException h test kind desc, .exited)
    | none => (bodyEvents test, .escaped v)
  | .neverReturns => (bodyEvents test, .running)

/-! ## The deadline -/

/-- A `struct timeval`, the result of `gettimeofday`. -/
structure Timeval where
  tv_sec : Int
  tv_usec : Int
  deriving DecidableEq

/-- A `struct timespec`. -/
structure Timespec where
  tv_sec : Int
  tv_nsec : Int
  deriving DecidableEq

/-- Conversion to `unsigned long` (64 bits). -/
def toULong (x : Int) : Int := x % 2 ^ 64

/-- The absolute deadline computed in `runTestWithTimeout`:
`tv_sec = now.tv_sec + (timeoutMS / 1000)` and
`tv_nsec = ((now.tv_usec + 1000UL * (timeoutMS % 1000)) * 1000UL) % 1000000UL`. -/
def timeToWait (now : Timeval) (timeoutMS : Int) : Timespec :=
  { tv_sec := now.tv_sec + Int.tdiv timeoutMS 1000
    tv_nsec :=
      toULong (toULong (toULong now.tv_usec
        + toULong (1000 * toULong (Int.tmod timeoutMS 1000))) * 1000) % 1000000 }

/-- Nanoseconds since the epoch denoted by a `timeval`. -/
def Timeval.toNanos (t : Timeval) : Int := t.tv_sec * 1000000000 + t.tv_usec * 1000

/-- Nanoseconds since the epoch denoted by a `timespec`. -/
def Timespec.toNanos (t : Timespec) : Int := t.tv_sec * 1000000000 + t.tv_nsec

/-- The range POSIX requires of `tv_nsec`. -/
def Timespec.valid (t : Timespec) : Prop := 0 ≤ t.tv_nsec ∧ t.tv_nsec < 1000000000

instance (t : Timespec) : Decidable t.valid := by unfold Timespec.valid; infer_instance

/-! ## `runTestWithTimeout` -/

/-- What the operating system decides during one call of `runTestWithTimeout`. -/
structure World where
  /-- Result of `gettimeofday(&now, NULL)`. -/
  now : Timeval
  /-- Result of `pthread_timedjoin_np(thread, &threadReturn, &timeToWait)` for a deadline. -/
  joinResult : Timespec → Int
  /-- How many of the events of the thread had happened when a join that does not report 0
  came back; the thread is followed no further than that. A join that reports 0 has seen
  the thread end, so all of its events have happened. -/
  threadProgress : Nat

/-- How a call of `runTestWithTimeout` ends for its caller. -/
inductive CallEnd where
  | returned
  | raised (v : Thrown)
  | neverReturns
  /-- A value left the thread function uncaught, which ends the process (`std::terminate`). -/
  | terminated (v : Thrown)
  deriving DecidableEq

/-- Result of one call of `runTestWithTimeout`. -/
structure Run where
  callerLog : List Event
  threadLog : List Event
  ending : CallEnd
  deriving DecidableEq

/-- End of a call that finishes with `error(msg)`. -/
def afterError (h : Helpers) (msg : String) : CallEnd :=
  match h.error msg with
  | none => .returned
  | some v => .raised v

/-- The pthread version of `runTestWithTimeout`. -/
def runTestWithTimeout (h : Helpers) (w : World) (test : AutograderTest) : Run :=
  let timeoutMS := test.getTestTimeout
  if timeoutMS > 0 then
    let thread := runTestInItsOwnThread h test
    let joinResult := w.joinResult (timeToWait w.now timeoutMS)
    if joinResult = ETIMEDOUT then
      { callerLog := [Event.pthread_create, Event.pthread_cancel,
          Event.setFailDetails ⟨UnitTestType.TEST_FAIL, TIMEOUT_ERROR_MESSAGE⟩,
          Event.error TIMEOUT_ERROR_MESSAGE]
        threadLog := thread.1.take w.threadProgress
        ending := afterError h TIMEOUT_ERROR_MESSAGE }
    else if joinResult = 0 then
      { callerLog := [Event.pthread_create]
        threadLog := thread.1
        ending :=
          match thread.2 with
          | .escaped v => .terminated v
          | _ => .returned }
    else
      { callerLog := [Event.pthread_create]
        threadLog := thread.1.take w.threadProgress
        ending := .returned }
  else
    { callerLog := bodyEvents test
      threadLog := []
      ending :=
        match test.TestRealBody.ending with
        | .returns => .returned
        | .throws v => .raised v
        | .neverReturns => .neverReturns }

/-- The failure details recorded in a log, in order. -/
def failDetails : List Event → List UnitTestDetails
  | [] => []
  | Event.setFailDetails d :: rest => d :: failDetails rest
  | _ :: rest => failDetails rest

/-- Number of `pthread_create` calls in a log. -/
def threadCreations (log : List Event) : Nat := log.count Event.pthread_create

/-- Number of invocations of the test body in a log. -/
def bodyInvocations (log : List Event) : Nat := log.count Event.TestRealBody

/-- Text `s` occurs inside `msg`. -/
def containsText (msg s : String) : Prop := ∃ pre post : String, msg = pre ++ s ++ post

/-- Text `msg` begins with `s`. -/
def startsWithText (msg s : String) : Prop := ∃ post : String, msg = s ++ post

/-! ## Concrete inputs for the worked cases -/

/-- Helpers for the worked cases: decimal rendering, an empty stack trace, and an `error`
that throws an `ErrorException` carrying its message. -/
def exampleHelpers : Helpers where
  integerToString := fun n => toString n
  longToString := fun l => toString l
  charToString := fun c => c.toString
  boolToString := fun b => if b then "true" else "false"
  realToString := fun d => toString d
  printStackTrace := ""
  error := fun msg => some (Thrown.ErrorException msg)

/-- A start time in the middle of a second. -/
def halfSecond : Timeval := ⟨1446163200, 500000⟩

/-- A run in which the join reports that the thread ended. -/
def worldJoined : World := ⟨halfSecond, fun _ => 0, 0⟩

/-- A run in which the join reports `ETIMEDOUT`. -/
def worldTimedOut : World := ⟨halfSecond, fun _ => ETIMEDOUT, 1⟩

/-- A run whose join reports `ETIMEDOUT` for a valid deadline and `EINVAL` (22) otherwise,
as a timed wait on a thread that never ends does. -/
def worldNeverJoins : World := ⟨halfSecond, fun ts => if ts.valid then ETIMEDOUT else 22, 1⟩

/-- An untimed test whose body throws the `int` 42. -/
def testThrowsIntUntimed : AutograderTest := ⟨"throws_int", 0, ⟨[], BodyEnd.throws (Thrown.int 42)⟩⟩

/-- A timed test whose body throws the `int` 42. -/
def testThrowsIntTimed : AutograderTest := ⟨"throws_int", 2000, ⟨[], BodyEnd.throws (Thrown.int 42)⟩⟩

/-- A timed test whose body throws a `float`. -/
def testThrowsFloat : AutograderTest :=
  ⟨"throws_float", 2000, ⟨[], BodyEnd.throws (Thrown.otherType "float")⟩⟩

/-- A test with a 500 ms timeout whose body is `while (true) {}`. -/
def testInfiniteLoop : AutograderTest := ⟨"infinite_loop", 500, ⟨[], BodyEnd.neverReturns⟩⟩

/-- An untimed test whose body returns. -/
def testPassesUntimed : AutograderTest := ⟨"passes", 0, ⟨[], BodyEnd.returns⟩⟩

/-! ## The result slot and the race of its two writers -/

/-- Modelled from the spec: the result slot behind `autograder::setFailDetails`, a function
that `threading.cpp` calls and that is defined elsewhere in the library. "The result slot is
write-once; if both completion and timeout race, the first writer wins and the second is a
no-op." The field `writes` counts the calls that changed the slot. -/
structure ResultSlot where
  details : Option UnitTestDetails
  writes : Nat
  deriving DecidableEq

/-- Modelled from the spec: the effect of `autograder::setFailDetails(deets)` on the write-once
result slot. The first call stores its details; a call on a filled slot is a no-op. -/
def ResultSlot.setFailDetails (slot : ResultSlot) (deets : UnitTestDetails) : ResultSlot :=
  match slot.details with
  | none => ⟨some deets, slot.writes + 1⟩
  | some _ => slot

/-- The slot at the start of a test: nothing recorded. -/
def emptySlot : ResultSlot := ⟨none, 0⟩

/-- The slot after the calls of a log, taken in order; only `setFailDetails` touches it. -/
def replay (slot : ResultSlot) : List Event → ResultSlot
  | [] => slot
  | Event.setFailDetails d :: rest => replay (slot.setFailDetails d) rest
  | _ :: rest => replay slot rest

/-- One order in which the events of the calling context (`xs`) and of the spawned thread
(`ys`) reach shared state. The scheduler decides step by step who moves: `true` the caller,
`false` the thread; a context with nothing left to do is skipped, and when the schedule is
used up the caller finishes before the thread. Each call is one step: two calls of
`setFailDetails` do not overlap. -/
def interleave : List Bool → List Event → List Event → List Event
  | _, [], ys => ys
  | _, xs, [] => xs
  | [], xs, ys => xs ++ ys
  | true :: sched, x :: xs, ys => x :: interleave sched xs ys
  | false :: sched, xs, y :: ys => y :: interleave sched xs ys

/-- The events of one call of `runTestWithTimeout` in the order a schedule puts them. -/
def raceLog (h : Helpers) (w : World) (test : AutograderTest) (sched : List Bool) : List Event :=
  interleave sched (runTestWithTimeout h w test).callerLog (runTestWithTimeout h w test).threadLog

/-- The result slot after one call of `runTestWithTimeout` under a schedule. -/
def slotAfter (h : Helpers) (w : World) (test : AutograderTest) (sched : List Bool) :
    ResultSlot :=
  replay emptySlot (raceLog h w test sched)

/-- A run in which the join reports `ETIMEDOUT` while the thread still gets through all four
of its events (body, `setTestResult`, `setFailDetails`, `pthread_exit`). -/
def worldRace : World := ⟨halfSecond, fun _ => ETIMEDOUT, 4⟩

end Autograder

namespace stylecheck

def DEFAULT_MIN_COUNT : Int := 0

def DEFAULT_MAX_COUNT : Int := 999999999

/-- A `pattern` element as `processPatternNode` sees it: the `xmlutils` attribute readers
applied to the node, and the counts the two regex matchers return for its pattern on the text
of the code file. -/
structure PatternNode where
  /-- The call `xmlutils::getAttributeInt(patternNode, name, defaultValue)`. -/
  getAttributeInt : String → Int → Int
  /-- The call `xmlutils::getAttributeBool(patternNode, name, defaultValue)`. -/
  getAttributeBool : String → Bool → Bool
  /-- Result of `stringutils::regexMatchCountWithLines(codeFileText, patternRegex, linesStr)`. -/
  regexMatchCountWithLines : Int
  /-- Result of `regexMatchCount(codeFileText, patternRegex)`. -/
  regexMatchCount : Int

/-- The `patternMinCount` of `processPatternNode` after the `count` override. -/
def patternMinCount (patternNode : PatternNode) : Int :=
  let patternMinCount := patternNode.getAttributeInt "mincount" DEFAULT_MIN_COUNT
  let patternCount := patternNode.getAttributeInt "count" (-1)
  if patternCount ≠ -1 then patternCount else patternMinCount

/-- The `patternMaxCount` of `processPatternNode` after the `count` override. -/
def patternMaxCount (patternNode : PatternNode) : Int :=
  let patternMaxCount := patternNode.getAttributeInt "maxcount" DEFAULT_MAX_COUNT
  let patternCount := patternNode.getAttributeInt "count" (-1)
  if patternCount ≠ -1 then patternCount else patternMaxCount

/-- The `matchCount` of `processPatternNode`. -/
def matchCount (patternNode : PatternNode) : Int :=
  let patternList := patternNode.getAttributeBool "list" true
  if patternList then patternNode.regexMatchCountWithLines else patternNode.regexMatchCount

/-- The three-way decision that sets `pass` in `processPatternNode`. -/
def passDecision (patternMinCount patternMaxCount matchCount : Int) : Bool :=
  if patternMinCount > 0 ∧ matchCount ≤ 0 then false
  else if patternMaxCount = 0 ∧ matchCount > 0 then false
  else if ¬ (patternMinCount ≤ matchCount ∧ matchCount ≤ patternMaxCount) then false
  else true

/-- Return value of `processPatternNode`. The text it prints and the calls it makes to the
graphical front end do not feed back into `pass` and are left out. -/
def processPatternNode (patternNode : PatternNode) : Bool :=
  passDecision (patternMinCount patternNode) (patternMaxCount patternNode)
    (matchCount patternNode)

/-- A `category` element: its name and its `pattern` children. -/
structure CategoryNode where
  name : String
  patterns : List PatternNode

/-- The `stylecheck` document element: `getChildNodes(styleCheckNode, "pattern")` and
`getChildNodes(styleCheckNode, "category")`. -/
structure StyleCheckNode where
  patterns : List PatternNode
  categories : List CategoryNode

/-- The counters of `styleCheck` and the `(passCount, testCount)` pairs it has handed to
`autograder::setTestCounts(passCount, testCount, true)`, oldest first. The counters are C
`int`s; they are not wrapped here, a rule file of more than `2 ^ 31 - 1` patterns being out
of reach. -/
structure Counts where
  testCount : Int
  passCount : Int
  published : List (Int × Int)
  deriving DecidableEq

/-- Body of the loop over the patterns directly under `stylecheck`. -/
def directStep (c : Counts) (patternNode : PatternNode) : Counts :=
  let c := { c with testCount := c.testCount + 1 }
  if processPatternNode patternNode then { c with passCount := c.passCount + 1 } else c

/-- Body of the inner loop over the patterns of one category. -/
def categoryStep (c : Counts) (patternNode : PatternNode) : Counts :=
  let c := directStep c patternNode
  { c with published := c.published ++ [(c.passCount, c.testCount)] }

/-- The counting part of `styleCheck`: `none` when it returns early because one of the two
files does not exist, otherwise the counters printed in
`"    STYLE CHECK: passed " << passCount << " of " << testCount << " checks."`. -/
def styleCheck (codeFileExists xmlFileExists : Bool) (styleCheckNode : StyleCheckNode) :
    Option Counts :=
  if !codeFileExists then none
  else if !xmlFileExists then none
  else
    let c := styleCheckNode.patterns.foldl directStep ⟨0, 0, []⟩
    some (styleCheckNode.categories.foldl
      (fun c categoryNode => categoryNode.patterns.foldl categoryStep c) c)

/-- Every pattern rule of a rule set: those directly under `stylecheck`, then those of each
category. -/
def allPatterns (styleCheckNode : StyleCheckNode) : List PatternNode :=
  styleCheckNode.patterns ++ (styleCheckNode.categories.map CategoryNode.patterns).flatten

/-! ## Concrete rule sets for the worked cases -/

/-- A rule whose attributes are all absent (every reader returns the default it is given)
except those listed in `ints`, and whose pattern matches `n` times under either matcher. -/
def exampleRule (ints : List (String × Int)) (n : Int) : PatternNode where
  getAttributeInt := fun name defaultValue => (ints.lookup name).getD defaultValue
  getAttributeBool := fun _ defaultValue => defaultValue
  regexMatchCountWithLines := n
  regexMatchCount := n

/-- A rule set with two rules directly under `stylecheck` (`mincount="18"` with 20 matches,
`maxcount="0"` with 3 matches) and one category holding one rule (`count="1"` with 1 match). -/
def exampleRuleSet : StyleCheckNode where
  patterns := [exampleRule [("mincount", 18)] 20, exampleRule [("maxcount", 0)] 3]
  categories := [⟨"naming", [exampleRule [("count", 1)] 1]⟩]

/-- A rule set whose only rule sits directly under `stylecheck` (`mincount="18"` with 20
matches); it has no category. -/
def directOnlyRuleSet : StyleCheckNode where
  patterns := [exampleRule [("mincount", 18)] 20]
  categories := []

/-- The effective expected range as the rule format describes it: `[mincount, maxcount]` with
defaults 0 and 999999999, unless a `count` other than -1 is given, which is then both ends. -/
def specRange (patternNode : PatternNode) : Int × Int :=
  let count := patternNode.getAttributeInt "count" (-1)
  if count = -1 then
    (patternNode.getAttributeInt "mincount" 0, patternNode.getAttributeInt "maxcount" 999999999)
  else (count, count)

end stylecheck

/-! # Theorems -/

namespace Autograder

/-! ## Logs -/

theorem failDetails_append (l₁ l₂ : List Event) :
    failDetails (l₁ ++ l₂) = failDetails l₁ ++ failDetails l₂ := by
  induction l₁ with
  | nil => rfl
  | cons e rest ih => cases e <;> simp [failDetails, ih]

theorem failDetails_map_setFailDetails (ds : List UnitTestDetails) :
    failDetails (ds.map Event.setFailDetails) = ds := by
  induction ds with
  | nil => rfl
  | cons d rest ih => simp [failDetails, ih]

theorem failDetails_bodyEvents (test : AutograderTest) :
    failDetails (bodyEvents test) = test.TestRealBody.recorded := by
  simp [bodyEvents, failDetails, failDetails_map_setFailDetails]

theorem failDetails_failWithException (h : Helpers) (test : AutograderTest) (kind desc : String) :
    failDetails (failWithException h test kind desc)
      = [⟨UnitTestType.TEST_EXCEPTION, errorMessage h kind desc⟩] := by
  simp [failWithException, failDetails]

theorem count_map_setFailDetails (e : Event) (he : ∀ d, e ≠ Event.setFailDetails d)
    (ds : List UnitTestDetails) : (ds.map Event.setFailDetails).count e = 0 := by
  rw [List.count_eq_zero]
  intro hmem
  obtain ⟨d, _, hd⟩ := List.mem_map.mp hmem
  exact he d hd.symm

theorem threadCreations_bodyEvents (test : AutograderTest) :
    threadCreations (bodyEvents test) = 0 := by
  unfold threadCreations bodyEvents
  rw [List.count_cons, count_map_setFailDetails _ (by intro d; simp)]
  simp

theorem bodyInvocations_bodyEvents (test : AutograderTest) :
    bodyInvocations (bodyEvents test) = 1 := by
  unfold bodyInvocations bodyEvents
  rw [List.count_cons, count_map_setFailDetails _ (by intro d; simp)]
  simp

/-! ## The deadline -/

theorem toULong_of_lt (x : Int) (h0 : 0 ≤ x) (h1 : x < 2 ^ 64) : toULong x = x :=
  Int.emod_eq_of_lt h0 h1

/-- For a positive timeout and a microsecond field in range, no conversion or product in the
deadline computation wraps. -/
theorem timeToWait_eq (now : Timeval) (T : Int) (hT : 0 < T) (h0 : 0 ≤ now.tv_usec)
    (h1 : now.tv_usec < 1000000) :
    timeToWait now T
      = ⟨now.tv_sec + T / 1000, ((now.tv_usec + 1000 * (T % 1000)) * 1000) % 1000000⟩ := by
  have hd : Int.tdiv T 1000 = T / 1000 := Int.tdiv_eq_ediv (le_of_lt hT) (by norm_num)
  have hm : Int.tmod T 1000 = T % 1000 := Int.tmod_eq_emod (le_of_lt hT) (by norm_num)
  have hm0 : 0 ≤ T % 1000 := Int.emod_nonneg T (by norm_num)
  have hm1 : T % 1000 < 1000 := Int.emod_lt_of_pos T (by norm_num)
  have e1 : toULong (T % 1000) = T % 1000 := toULong_of_lt _ hm0 (by linarith)
  have e2 : toULong (1000 * (T % 1000)) = 1000 * (T % 1000) :=
    toULong_of_lt _ (by linarith) (by linarith)
  have e3 : toULong now.tv_usec = now.tv_usec := toULong_of_lt _ h0 (by linarith)
  have e4 : toULong (now.tv_usec + 1000 * (T % 1000)) = now.tv_usec + 1000 * (T % 1000) :=
    toULong_of_lt _ (by linarith) (by linarith)
  have e5 : toULong ((now.tv_usec + 1000 * (T % 1000)) * 1000)
      = (now.tv_usec + 1000 * (T % 1000)) * 1000 :=
    toULong_of_lt _ (by nlinarith) (by linarith)
  unfold timeToWait
  rw [hd, hm, e1, e2, e3, e4, e5]

theorem timeToWait_bounds (now : Timeval) (T : Int) (hT : 0 < T) (h0 : 0 ≤ now.tv_usec)
    (h1 : now.tv_usec < 1000000) :
    (timeToWait now T).valid ∧ (timeToWait now T).toNanos ≤ now.toNanos + T * 1000000 := by
  rw [timeToWait_eq now T hT h0 h1]
  unfold Timespec.valid Timespec.toNanos Timeval.toNanos
  simp only
  omega

/-- The deadline is exactly `now + T` ms only for a whole number of seconds started within
the first millisecond of a second; otherwise it is earlier. -/
theorem timeToWait_exact_iff (now : Timeval) (T : Int) (hT : 0 < T) (h0 : 0 ≤ now.tv_usec)
    (h1 : now.tv_usec < 1000000) :
    (timeToWait now T).toNanos = now.toNanos + T * 1000000
      ↔ T % 1000 = 0 ∧ now.tv_usec < 1000 := by
  rw [timeToWait_eq now T hT h0 h1]
  unfold Timespec.toNanos Timeval.toNanos
  simp only
  omega

/-! ## `runTestWithTimeout` by case -/

theorem runTestWithTimeout_untimed (h : Helpers) (w : World) (test : AutograderTest)
    (hT : test.getTestTimeout ≤ 0) :
    runTestWithTimeout h w test
      = { callerLog := bodyEvents test
          threadLog := []
          ending :=
            match test.TestRealBody.ending with
            | .returns => .returned
            | .throws v => .raised v
            | .neverReturns => .neverReturns } := by
  unfold runTestWithTimeout
  simp only
  rw [if_neg (not_lt.mpr hT)]

theorem runTestWithTimeout_timedOut (h : Helpers) (w : World) (test : AutograderTest)
    (hT : 0 < test.getTestTimeout)
    (hJoin : w.joinResult (timeToWait w.now test.getTestTimeout) = ETIMEDOUT) :
    runTestWithTimeout h w test
      = { callerLog := [Event.pthread_create, Event.pthread_cancel,
            Event.setFailDetails ⟨UnitTestType.TEST_FAIL, TIMEOUT_ERROR_MESSAGE⟩,
            Event.error TIMEOUT_ERROR_MESSAGE]
          threadLog := (runTestInItsOwnThread h test).1.take w.threadProgress
          ending := afterError h TIMEOUT_ERROR_MESSAGE } := by
  unfold runTestWithTimeout
  simp only
  rw [if_pos hT, if_pos hJoin]

theorem runTestWithTimeout_joined (h : Helpers) (w : World) (test : AutograderTest)
    (hT : 0 < test.getTestTimeout)
    (hJoin : w.joinResult (timeToWait w.now test.getTestTimeout) = 0) :
    runTestWithTimeout h w test
      = { callerLog := [Event.pthread_create]
          threadLog := (runTestInItsOwnThread h test).1
          ending :=
            match (runTestInItsOwnThread h test).2 with
            | .escaped v => .terminated v
            | _ => .returned } := by
  have hne : ¬ w.joinResult (timeToWait w.now test.getTestTimeout) = ETIMEDOUT := by
    rw [hJoin]; decide
  unfold runTestWithTimeout
  simp only
  rw [if_pos hT, if_neg hne, if_pos hJoin]

/-! ## Claims about `runTestWithTimeout` and the thread function -/

/-- C1, as stated, fails: on the untimed path (timeout 0) a body that throws the `int` 42 makes
`runTestWithTimeout` end by raising that value to its caller, with nothing recorded. -/
theorem untimed_throw_escapes_to_caller :
    (runTestWithTimeout exampleHelpers worldJoined testThrowsIntUntimed).ending
        = CallEnd.raised (Thrown.int 42) ∧
      (runTestWithTimeout exampleHelpers worldJoined testThrowsIntUntimed).ending
        ≠ CallEnd.returned ∧
      failDetails (runTestWithTimeout exampleHelpers worldJoined testThrowsIntUntimed).callerLog
        = [] ∧
      (runTestWithTimeout exampleHelpers worldJoined testThrowsIntUntimed).threadLog = [] := by
  decide

/-- C1, amended: (a) on the timed path, when the join reports that the thread ended and the
body returned (with or without recorded assertion failures) or threw a value that a handler of
the thread function matches, `runTestWithTimeout` returns normally, every failure the body
recorded is in the log, and a thrown value is recorded as a `TEST_EXCEPTION` failure;
(b) on the timed path, when the join reports `ETIMEDOUT`, the timeout failure is recorded and
the call then ends the way `error(TIMEOUT_ERROR_MESSAGE)` ends; (c) on the untimed path the
body runs on the caller with no handler around it, so the call ends the way the body ends and
a thrown value is raised to the caller. -/
theorem runTestWithTimeout_outcomes (h : Helpers) (w : World) (test : AutograderTest) :
    (0 < test.getTestTimeout →
      w.joinResult (timeToWait w.now test.getTestTimeout) = 0 →
      (∀ v, test.TestRealBody.ending = BodyEnd.throws v → catchChain h v ≠ none) →
        (runTestWithTimeout h w test).ending = CallEnd.returned ∧
        (∀ d ∈ test.TestRealBody.recorded,
          d ∈ failDetails (runTestWithTimeout h w test).threadLog) ∧
        (∀ v kind desc, test.TestRealBody.ending = BodyEnd.throws v →
          catchChain h v = some (kind, desc) →
          (⟨UnitTestType.TEST_EXCEPTION, errorMessage h kind desc⟩ : UnitTestDetails)
            ∈ failDetails (runTestWithTimeout h w test).threadLog)) ∧
    (0 < test.getTestTimeout →
      w.joinResult (timeToWait w.now test.getTestTimeout) = ETIMEDOUT →
        (runTestWithTimeout h w test).ending = afterError h TIMEOUT_ERROR_MESSAGE ∧
        failDetails (runTestWithTimeout h w test).callerLog
          = [⟨UnitTestType.TEST_FAIL, TIMEOUT_ERROR_MESSAGE⟩]) ∧
    (test.getTestTimeout ≤ 0 →
        (runTestWithTimeout h w test).callerLog = bodyEvents test ∧
        (runTestWithTimeout h w test).threadLog = [] ∧
        ((runTestWithTimeout h w test).ending = CallEnd.returned
          ↔ test.TestRealBody.ending = BodyEnd.returns) ∧
        (∀ v, (runTestWithTimeout h w test).ending = CallEnd.raised v
          ↔ test.TestRealBody.ending = BodyEnd.throws v)) := by
  refine ⟨?_, ?_, ?_⟩
  · intro hT hJoin hCaught
    rw [runTestWithTimeout_joined h w test hT hJoin]
    simp only
    cases hEnd : test.TestRealBody.ending with
    | returns =>
      simp [runTestInItsOwnThread, hEnd, failDetails_bodyEvents]
    | neverReturns =>
      simp [runTestInItsOwnThread, hEnd, failDetails_bodyEvents]
    | throws v =>
      cases hc : catchChain h v with
      | none => exact absurd hc (hCaught v hEnd)
      | some kd =>
        obtain ⟨kind, desc⟩ := kd
        simp only [runTestInItsOwnThread, hEnd, hc, failDetails_append, failDetails_bodyEvents,
          failDetails_failWithException]
        refine ⟨trivial, fun d hd => List.mem_append_left _ hd, ?_⟩
        intro v' kind' desc' hv' hc'
        have hvv : v' = v := by injection hv' with hvv; exact hvv.symm
        subst hvv
        rw [hc] at hc'
        injection hc' with hkd
        injection hkd with hk hd
        subst hk hd
        simp
  · intro hT hJoin
    rw [runTestWithTimeout_timedOut h w test hT hJoin]
    simp [failDetails]
  · intro hT
    rw [runTestWithTimeout_untimed h w test hT]
    cases hEnd : test.TestRealBody.ending <;> simp

/-- Worked cases of `runTestWithTimeout_outcomes`: a timed body that throws 42 and is joined,
an infinite loop that times out, and an untimed body that returns. -/
theorem runTestWithTimeout_outcomes_witness :
    ((runTestWithTimeout exampleHelpers worldJoined testThrowsIntTimed).ending
        = CallEnd.returned ∧
      (⟨UnitTestType.TEST_EXCEPTION,
          errorMessage exampleHelpers "An int exception" (exampleHelpers.integerToString 42)⟩ :
          UnitTestDetails)
        ∈ failDetails (runTestWithTimeout exampleHelpers worldJoined testThrowsIntTimed).threadLog) ∧
    ((runTestWithTimeout exampleHelpers worldTimedOut testInfiniteLoop).ending
        = CallEnd.raised (Thrown.ErrorException TIMEOUT_ERROR_MESSAGE) ∧
      failDetails (runTestWithTimeout exampleHelpers worldTimedOut testInfiniteLoop).callerLog
        = [⟨UnitTestType.TEST_FAIL, TIMEOUT_ERROR_MESSAGE⟩]) ∧
    ((runTestWithTimeout exampleHelpers worldJoined testPassesUntimed).ending
        = CallEnd.returned) := by
  have a := (runTestWithTimeout_outcomes exampleHelpers worldJoined testThrowsIntTimed).1
    (by decide) (by decide)
    (by
      intro v hv
      have hvv : v = Thrown.int 42 := by
        have : BodyEnd.throws (Thrown.int 42) = BodyEnd.throws v := hv
        injection this with e
        exact e.symm
      subst hvv
      simp [catchChain])
  have b := (runTestWithTimeout_outcomes exampleHelpers worldTimedOut testInfiniteLoop).2.1
    (by decide) (by decide)
  have c := (runTestWithTimeout_outcomes exampleHelpers worldJoined testPassesUntimed).2.2
    (by decide)
  exact ⟨⟨a.1, a.2.2 (Thrown.int 42) _ _ rfl rfl⟩, ⟨b.1, b.2⟩, c.2.2.1.mpr rfl⟩

/-- C2, as stated, fails: for the 500 ms test whose body loops forever and whose join reports
`ETIMEDOUT`, the one failure recorded by the caller carries the message
"test timed out! possible infinite loop", which is not "test timed out, possible infinite loop". -/
theorem timeout_message_is_not_the_comma_text :
    failDetails (runTestWithTimeout exampleHelpers worldTimedOut testInfiniteLoop).callerLog
        = [⟨UnitTestType.TEST_FAIL, "test timed out! possible infinite loop"⟩] ∧
      ¬ (∀ d ∈ failDetails
            (runTestWithTimeout exampleHelpers worldTimedOut testInfiniteLoop).callerLog,
          d.message = "test timed out, possible infinite loop") := by
  decide

/-- C2, amended: for every test with timeout `T > 0` whose join reports `ETIMEDOUT`, the caller
cancels the thread and records exactly one failure, of type `TEST_FAIL`, whose message is
exactly "test timed out! possible infinite loop". -/
theorem timeout_failure_message (h : Helpers) (w : World) (test : AutograderTest)
    (hT : 0 < test.getTestTimeout)
    (hJoin : w.joinResult (timeToWait w.now test.getTestTimeout) = ETIMEDOUT) :
    failDetails (runTestWithTimeout h w test).callerLog
        = [⟨UnitTestType.TEST_FAIL, "test timed out! possible infinite loop"⟩] ∧
      Event.pthread_cancel ∈ (runTestWithTimeout h w test).callerLog := by
  rw [runTestWithTimeout_timedOut h w test hT hJoin]
  simp [failDetails, TIMEOUT_ERROR_MESSAGE]

/-- Worked case of `timeout_failure_message`: the infinite loop with a 500 ms timeout. -/
theorem timeout_failure_message_witness :
    0 < testInfiniteLoop.getTestTimeout ∧
      failDetails (runTestWithTimeout exampleHelpers worldTimedOut testInfiniteLoop).callerLog
        = [⟨UnitTestType.TEST_FAIL, "test timed out! possible infinite loop"⟩] :=
  ⟨by decide,
    (timeout_failure_message exampleHelpers worldTimedOut testInfiniteLoop
      (by decide) (by decide)).1⟩

/-- C3: for every test whose timeout is not positive, `runTestWithTimeout` creates no thread,
nothing runs on a spawned thread, and the body is invoked exactly once, on the caller. -/
theorem untimed_runs_inline (h : Helpers) (w : World) (test : AutograderTest)
    (hT : test.getTestTimeout ≤ 0) :
    threadCreations (runTestWithTimeout h w test).callerLog = 0 ∧
      (runTestWithTimeout h w test).threadLog = [] ∧
      bodyInvocations (runTestWithTimeout h w test).callerLog = 1 ∧
      (runTestWithTimeout h w test).callerLog = bodyEvents test := by
  rw [runTestWithTimeout_untimed h w test hT]
  exact ⟨threadCreations_bodyEvents test, rfl, bodyInvocations_bodyEvents test, rfl⟩

/-- Worked case of `untimed_runs_inline`: a test with timeout 0. -/
theorem untimed_runs_inline_witness :
    testPassesUntimed.getTestTimeout ≤ 0 ∧
      threadCreations (runTestWithTimeout exampleHelpers worldJoined testPassesUntimed).callerLog
        = 0 ∧
      bodyInvocations (runTestWithTimeout exampleHelpers worldJoined testPassesUntimed).callerLog
        = 1 :=
  ⟨by decide,
    (untimed_runs_inline exampleHelpers worldJoined testPassesUntimed (by decide)).1,
    (untimed_runs_inline exampleHelpers worldJoined testPassesUntimed (by decide)).2.2.1⟩

/-- C4, evaluated at `tv_usec = 500000`, `T = 500`: the deadline computed by
`runTestWithTimeout` is `(tv_sec, 0)`, half a second before `now` itself and a full second
before `now + T`; a body that ends at any time from `now` on ends after the deadline. -/
theorem deadline_precedes_start_at_half_second :
    timeToWait halfSecond 500 = ⟨1446163200, 0⟩ ∧
      (timeToWait halfSecond 500).toNanos + 500000000 = halfSecond.toNanos ∧
      (timeToWait halfSecond 500).toNanos < halfSecond.toNanos + 500 * 1000000 ∧
      (∀ ε : Int, 0 < ε → ε ≤ 500 * 1000000 →
        (timeToWait halfSecond 500).toNanos < halfSecond.toNanos + 500 * 1000000 - ε) := by
  refine ⟨by decide, by decide, by decide, ?_⟩
  intro ε _ hε
  have e : (timeToWait halfSecond 500).toNanos + 500000000 = halfSecond.toNanos := by decide
  omega

/-- C5: for every timeout `T > 0` and start time with `0 <= tv_usec < 1000000`, the deadline
computed by `runTestWithTimeout` is a valid `timespec` and is no later than `now + T` ms; hence,
where a timed wait on a valid deadline for a thread that never ends reports `ETIMEDOUT`, a test
whose body never returns gets the timeout failure recorded. -/
theorem deadline_valid_and_not_late (h : Helpers) (w : World) (test : AutograderTest)
    (hT : 0 < test.getTestTimeout) (h0 : 0 ≤ w.now.tv_usec) (h1 : w.now.tv_usec < 1000000)
    (hBody : test.TestRealBody.ending = BodyEnd.neverReturns)
    (hWait : ∀ ts : Timespec, ts.valid → test.TestRealBody.ending = BodyEnd.neverReturns →
      w.joinResult ts = ETIMEDOUT) :
    0 ≤ (timeToWait w.now test.getTestTimeout).tv_nsec ∧
      (timeToWait w.now test.getTestTimeout).tv_nsec < 1000000000 ∧
      (timeToWait w.now test.getTestTimeout).toNanos
        ≤ w.now.toNanos + test.getTestTimeout * 1000000 ∧
      w.joinResult (timeToWait w.now test.getTestTimeout) = ETIMEDOUT ∧
      failDetails (runTestWithTimeout h w test).callerLog
        = [⟨UnitTestType.TEST_FAIL, TIMEOUT_ERROR_MESSAGE⟩] := by
  obtain ⟨hv, hle⟩ := timeToWait_bounds w.now test.getTestTimeout hT h0 h1
  have hJoin := hWait _ hv hBody
  refine ⟨hv.1, hv.2, hle, hJoin, ?_⟩
  rw [runTestWithTimeout_timedOut h w test hT hJoin]
  simp [failDetails]

/-- Worked case of `deadline_valid_and_not_late`: the infinite loop started in the middle of a
second with a 500 ms timeout. -/
theorem deadline_valid_and_not_late_witness :
    (timeToWait worldNeverJoins.now 500).toNanos ≤ worldNeverJoins.now.toNanos + 500 * 1000000 ∧
      failDetails (runTestWithTimeout exampleHelpers worldNeverJoins testInfiniteLoop).callerLog
        = [⟨UnitTestType.TEST_FAIL, TIMEOUT_ERROR_MESSAGE⟩] :=
  have r := deadline_valid_and_not_late exampleHelpers worldNeverJoins testInfiniteLoop
    (by decide) (by decide) (by decide) rfl
    (by intro ts hts _; simp [worldNeverJoins, hts])
  ⟨r.2.2.1, r.2.2.2.2⟩

/-- C6: for every integer `v`, when the body throws the `int` `v`, the thread function takes the
`catch (int n)` handler: it records one more failure, of type `TEST_EXCEPTION`, whose message
begins with "An int exception" and contains `integerToString(v)`, and leaves through
`pthread_exit`. -/
theorem int_exception_recorded (h : Helpers) (name : String) (timeout : Int)
    (recorded : List UnitTestDetails) (v : Int) :
    ∃ msg : String,
      (runTestInItsOwnThread h ⟨name, timeout, ⟨recorded, BodyEnd.throws (Thrown.int v)⟩⟩).2
          = ThreadEnd.exited ∧
        failDetails
            (runTestInItsOwnThread h ⟨name, timeout, ⟨recorded, BodyEnd.throws (Thrown.int v)⟩⟩).1
          = recorded ++ [⟨UnitTestType.TEST_EXCEPTION, msg⟩] ∧
        msg = "An int exception was thrown during test execution:\n"
          ++ h.integerToString v ++ "\n" ++ h.printStackTrace ∧
        startsWithText msg "An int exception" ∧
        containsText msg (h.integerToString v) := by
  refine ⟨errorMessage h "An int exception" (h.integerToString v), rfl, ?_, ?_, ?_, ?_⟩
  · simp only [runTestInItsOwnThread, catchChain, failDetails_append, failDetails_bodyEvents,
      failDetails_failWithException]
  · simp only [errorMessage, String.append_assoc]
    rfl
  · exact ⟨" was thrown during test execution:" ++ "\n" ++ h.integerToString v ++ "\n"
      ++ h.printStackTrace, by simp only [errorMessage, String.append_assoc]⟩
  · exact ⟨"An int exception" ++ " was thrown during test execution:" ++ "\n",
      "\n" ++ h.printStackTrace, by simp only [errorMessage, String.append_assoc]⟩

/-- C7, as stated, fails: when the body throws a `float`, no handler of the thread function
matches; the value leaves the thread function and no failure is recorded. -/
theorem float_leaves_thread_function_unclassified :
    catchChain exampleHelpers (Thrown.otherType "float") = none ∧
      (runTestInItsOwnThread exampleHelpers testThrowsFloat).2
        = ThreadEnd.escaped (Thrown.otherType "float") ∧
      failDetails (runTestInItsOwnThread exampleHelpers testThrowsFloat).1 = [] := by
  decide

/-- C7, amended: for every thrown value whose type one of the nine handlers matches
(`ErrorException`, `std::exception`, `std::string`, `char const*`, `int`, `long`, `char`,
`bool`, `double`), the thread function records one more failure, of type `TEST_EXCEPTION`, and
leaves through `pthread_exit`; there is no catch-all handler, and a value of any other type
leaves the thread function with nothing recorded for it. -/
theorem thrown_value_classified_iff_handled (h : Helpers) (name : String) (timeout : Int)
    (recorded : List UnitTestDetails) (v : Thrown) :
    ((∀ typeName, v ≠ Thrown.otherType typeName) →
      (runTestInItsOwnThread h ⟨name, timeout, ⟨recorded, BodyEnd.throws v⟩⟩).2
          = ThreadEnd.exited ∧
        ∃ kind desc, catchChain h v = some (kind, desc) ∧
          failDetails (runTestInItsOwnThread h ⟨name, timeout, ⟨recorded, BodyEnd.throws v⟩⟩).1
            = recorded ++ [⟨UnitTestType.TEST_EXCEPTION, errorMessage h kind desc⟩]) ∧
    (∀ typeName, v = Thrown.otherType typeName →
      (runTestInItsOwnThread h ⟨name, timeout, ⟨recorded, BodyEnd.throws v⟩⟩).2
          = ThreadEnd.escaped v ∧
        failDetails (runTestInItsOwnThread h ⟨name, timeout, ⟨recorded, BodyEnd.throws v⟩⟩).1
          = recorded) := by
  constructor
  · intro hv
    cases v with
    | otherType t => exact absurd rfl (hv t)
    | _ =>
      refine ⟨rfl, _, _, rfl, ?_⟩
      simp only [runTestInItsOwnThread, catchChain, failDetails_append, failDetails_bodyEvents,
        failDetails_failWithException]
  · intro t ht
    subst ht
    refine ⟨rfl, ?_⟩
    simp only [runTestInItsOwnThread, catchChain, failDetails_bodyEvents]

/-- Worked cases of `thrown_value_classified_iff_handled`: a thrown `bool` is recorded, a thrown
`float` is not. -/
theorem thrown_value_classified_iff_handled_witness :
    (runTestInItsOwnThread exampleHelpers ⟨"t", 2000, ⟨[], BodyEnd.throws (Thrown.bool true)⟩⟩).2
        = ThreadEnd.exited ∧
      (runTestInItsOwnThread exampleHelpers
          ⟨"t", 2000, ⟨[], BodyEnd.throws (Thrown.otherType "float")⟩⟩).2
        = ThreadEnd.escaped (Thrown.otherType "float") :=
  ⟨((thrown_value_classified_iff_handled exampleHelpers "t" 2000 [] (Thrown.bool true)).1
      (by intro t ht; cases ht)).1,
    ((thrown_value_classified_iff_handled exampleHelpers "t" 2000 []
      (Thrown.otherType "float")).2 "float" rfl).1⟩

/-! ## The emulated `pthread_timedjoin_np` -/

theorem JoinSchedule.joined_mono (s : JoinSchedule) {i j : Nat} (hij : i ≤ j)
    (hi : s.joined i = true) : s.joined j = true := by
  unfold JoinSchedule.joined at *
  cases hs : s.mutexPassedDuring with
  | none => rw [hs] at hi; simp at hi
  | some n =>
    rw [hs] at hi
    simp only [decide_eq_true_eq] at *
    omega

/-- The flag is set only by a waiter that has passed the mutex. -/
theorem JoinSchedule.mutexPassedBy_of_joined (s : JoinSchedule) {i : Nat}
    (hi : s.joined i = true) : s.mutexPassedBy i = true := by
  unfold JoinSchedule.joined at hi
  unfold JoinSchedule.mutexPassedBy
  cases hs : s.mutexPassedDuring with
  | none => rw [hs] at hi; simp at hi
  | some n =>
    rw [hs] at hi
    simp only [decide_eq_true_eq] at *
    omega

theorem waitLoop_step_exit (s : JoinSchedule) (fuel i : Nat)
    (hExit : s.joined i = true ∨ s.waitResult i = ETIMEDOUT) :
    waitLoop s (fuel + 1) i = some (i, s.waitResult i) := by
  unfold waitLoop
  rcases hExit with hj | hw
  · simp [hj]
  · simp [hw]

theorem waitLoop_step_continue (s : JoinSchedule) (fuel i : Nat)
    (hj : s.joined i = false) (hw : s.waitResult i ≠ ETIMEDOUT) :
    waitLoop s (fuel + 1) i = waitLoop s fuel (i + 1) := by
  conv_lhs => unfold waitLoop
  simp [hj, hw]

/-- If some wait from number `i` on ends the loop, then with enough fuel the loop started at `i`
stops at the first such wait. -/
theorem waitLoop_exits (s : JoinSchedule) (k : Nat)
    (hExit : s.joined k = true ∨ s.waitResult k = ETIMEDOUT) :
    ∀ (n i : Nat), i + n = k → ∃ j, i ≤ j ∧ j ≤ k ∧
      (s.joined j = true ∨ s.waitResult j = ETIMEDOUT) ∧
      ∀ fuel, k < i + fuel → waitLoop s fuel i = some (j, s.waitResult j) := by
  intro n
  induction n with
  | zero =>
    intro i hi
    have hik : i = k := by omega
    subst hik
    refine ⟨i, le_refl _, le_refl _, hExit, ?_⟩
    intro fuel hf
    obtain ⟨f, rfl⟩ : ∃ f, fuel = f + 1 := ⟨fuel - 1, by omega⟩
    exact waitLoop_step_exit s f i hExit
  | succ n ih =>
    intro i hi
    by_cases hHere : s.joined i = true ∨ s.waitResult i = ETIMEDOUT
    · refine ⟨i, le_refl _, by omega, hHere, ?_⟩
      intro fuel hf
      obtain ⟨f, rfl⟩ : ∃ f, fuel = f + 1 := ⟨fuel - 1, by omega⟩
      exact waitLoop_step_exit s f i hHere
    · obtain ⟨j, hij, hjk, hj, hrun⟩ := ih (i + 1) (by omega)
      refine ⟨j, by omega, hjk, hj, ?_⟩
      intro fuel hf
      obtain ⟨f, rfl⟩ : ∃ f, fuel = f + 1 := ⟨fuel - 1, by omega⟩
      have hjf : s.joined i = false := by
        cases hb : s.joined i with
        | false => rfl
        | true => exact absurd (Or.inl hb) hHere
      have hwf : s.waitResult i ≠ ETIMEDOUT := fun hw => hHere (Or.inr hw)
      rw [waitLoop_step_continue s f i hjf hwf]
      exact hrun f (by omega)

/-- The wait at which the loop stops does not depend on how much fuel was left over. -/
theorem waitLoop_unique (s : JoinSchedule) :
    ∀ (f₁ f₂ i : Nat) (x y : Nat × Int),
      waitLoop s f₁ i = some x → waitLoop s f₂ i = some y → x = y := by
  intro f₁
  induction f₁ with
  | zero => intro f₂ i x y h₁ _; simp [waitLoop] at h₁
  | succ f₁ ih =>
    intro f₂ i x y h₁ h₂
    cases f₂ with
    | zero => simp [waitLoop] at h₂
    | succ f₂ =>
      by_cases hHere : s.joined i = true ∨ s.waitResult i = ETIMEDOUT
      · rw [waitLoop_step_exit s f₁ i hHere] at h₁
        rw [waitLoop_step_exit s f₂ i hHere] at h₂
        exact (Option.some.inj h₁).symm.trans (Option.some.inj h₂)
      · have hjf : s.joined i = false := by
          cases hb : s.joined i with
          | false => rfl
          | true => exact absurd (Or.inl hb) hHere
        have hwf : s.waitResult i ≠ ETIMEDOUT := fun hw => hHere (Or.inr hw)
        rw [waitLoop_step_continue s f₁ i hjf hwf] at h₁
        rw [waitLoop_step_continue s f₂ i hjf hwf] at h₂
        exact ih f₂ (i + 1) x y h₁ h₂

/-- What the call does once the loop has ended with wait `i`. -/
theorem pthread_timedjoin_np_of_waitLoop (s : JoinSchedule) (fuel i : Nat) (ret : Int)
    (hCreate : s.createResult = 0) (hLoop : waitLoop s fuel 0 = some (i, ret)) :
    pthread_timedjoin_np s fuel
      = some (if s.mutexPassedBy i then JoinEnd.returns 0
          else if s.cancelledInJoin then JoinEnd.returns ETIMEDOUT
          else JoinEnd.neverReturns) := by
  unfold pthread_timedjoin_np
  rw [if_neg (by simp [hCreate]), hLoop]
  by_cases hp : s.mutexPassedBy i = true
  · have hw : waiterAfterCancel s i = WaiterEnd.finished := by
      unfold waiterAfterCancel; rw [if_pos hp]
    simp only [hw, if_pos hp]
    rfl
  · by_cases hc : s.cancelledInJoin = true
    · have hw : waiterAfterCancel s i = WaiterEnd.cancelled := by
        unfold waiterAfterCancel; rw [if_neg hp, if_pos hc]
      simp only [hw, if_neg hp, if_pos hc]
      rfl
    · have hw : waiterAfterCancel s i = WaiterEnd.blocked := by
        unfold waiterAfterCancel; rw [if_neg hp, if_neg hc]
      simp only [hw, if_neg hp, if_neg hc]
      rfl

/-- The schedules of the edge cases, evaluated. The first wait returns `ETIMEDOUT` in all of
them. (1) The waiter is cancelled in `pthread_join`: the call returns `ETIMEDOUT`. (2) The
waiter has left `pthread_join` and waits for the mutex: the call never returns. (3) The waiter
passed the mutex during the wait but has not set `joined` when the loop reads it: the loop ends
on the timeout, the waiter finishes, and the call returns 0. (4) The waiter cannot be created:
the call returns -1. (5) The waits never time out and the waiter never gets through: the loop
is still running after 50 waits. -/
theorem timedjoin_edge_schedules :
    pthread_timedjoin_np ⟨0, fun _ => ETIMEDOUT, none, 0, true⟩ 1
        = some (JoinEnd.returns ETIMEDOUT) ∧
      pthread_timedjoin_np ⟨0, fun _ => ETIMEDOUT, none, 0, false⟩ 1
        = some JoinEnd.neverReturns ∧
      pthread_timedjoin_np ⟨0, fun _ => ETIMEDOUT, some 0, 1, false⟩ 1
        = some (JoinEnd.returns 0) ∧
      pthread_timedjoin_np ⟨11, fun _ => ETIMEDOUT, none, 0, true⟩ 1
        = some (JoinEnd.returns (-1)) ∧
      pthread_timedjoin_np ⟨0, fun _ => 0, none, 0, true⟩ 50 = none := by
  decide

/-- C8: in the emulated `pthread_timedjoin_np`, for every sequence of wait results and every
point at which the waiter passes the mutex and sets `joined`, once some wait ends the loop (and
the waiter thread could be created): the loop stops at a definite wait `i`, and the call
returns 0 when the waiter had passed the mutex by then, returns `ETIMEDOUT` when it had not and
is cancelled in `pthread_join`, and never returns when it had not and waits for the mutex.
Hence the call returns 0 whenever `joined` is set when the loop exits, whatever the last wait
returned; every value it returns is 0 or `ETIMEDOUT`; and it returns `ETIMEDOUT` only with
`joined` unset, both when the loop exits and at the `return`, and with `ETIMEDOUT` as the
result of the last wait. -/
theorem timedjoin_completed_takes_priority (s : JoinSchedule) (k : Nat)
    (hCreate : s.createResult = 0)
    (hExit : s.joined k = true ∨ s.waitResult k = ETIMEDOUT) :
    ∃ i, i ≤ k ∧
      (∀ fuel, k < fuel →
        waitLoop s fuel 0 = some (i, s.waitResult i) ∧
        pthread_timedjoin_np s fuel
          = some (if s.mutexPassedBy i then JoinEnd.returns 0
              else if s.cancelledInJoin then JoinEnd.returns ETIMEDOUT
              else JoinEnd.neverReturns)) ∧
      (s.joined i = true →
        ∀ fuel, k < fuel → pthread_timedjoin_np s fuel = some (JoinEnd.returns 0)) ∧
      (∀ fuel r, pthread_timedjoin_np s fuel = some (JoinEnd.returns r) →
        r = 0 ∨ r = ETIMEDOUT) ∧
      (∀ fuel, pthread_timedjoin_np s fuel = some (JoinEnd.returns ETIMEDOUT) →
        s.joined i = false ∧ s.mutexPassedBy i = false ∧ s.waitResult i = ETIMEDOUT) := by
  obtain ⟨i, _, hik, hi, hrun⟩ := waitLoop_exits s k hExit k 0 (by omega)
  have hloop : ∀ fuel, k < fuel → waitLoop s fuel 0 = some (i, s.waitResult i) :=
    fun fuel hf => hrun fuel (by omega)
  -- whatever the fuel, a call that ends has gone through wait `i`
  have hany : ∀ fuel e, pthread_timedjoin_np s fuel = some e →
      e = (if s.mutexPassedBy i then JoinEnd.returns 0
          else if s.cancelledInJoin then JoinEnd.returns ETIMEDOUT
          else JoinEnd.neverReturns) := by
    intro fuel e he
    cases hl : waitLoop s fuel 0 with
    | none =>
      unfold pthread_timedjoin_np at he
      rw [if_neg (by simp [hCreate]), hl] at he
      cases he
    | some x =>
      have hx : x = (i, s.waitResult i) :=
        waitLoop_unique s fuel (k + 1) 0 x _ hl (hloop (k + 1) (by omega))
      rw [hx] at hl
      rw [pthread_timedjoin_np_of_waitLoop s fuel i _ hCreate hl] at he
      exact (Option.some.inj he).symm
  refine ⟨i, hik, ?_, ?_, ?_, ?_⟩
  · intro fuel hf
    exact ⟨hloop fuel hf, pthread_timedjoin_np_of_waitLoop s fuel i _ hCreate (hloop fuel hf)⟩
  · intro hj fuel hf
    rw [pthread_timedjoin_np_of_waitLoop s fuel i _ hCreate (hloop fuel hf),
      if_pos (s.mutexPassedBy_of_joined hj)]
  · intro fuel r hr
    have h := hany fuel _ hr
    by_cases hp : s.mutexPassedBy i = true
    · rw [if_pos hp] at h
      left; injection h
    · rw [if_neg hp] at h
      by_cases hc : s.cancelledInJoin = true
      · rw [if_pos hc] at h
        right; injection h
      · rw [if_neg hc] at h
        cases h
  · intro fuel hr
    have h := hany fuel _ hr
    have hp : s.mutexPassedBy i = false := by
      cases hb : s.mutexPassedBy i with
      | false => rfl
      | true =>
        rw [hb, if_pos rfl] at h
        injection h with h
        simp [ETIMEDOUT] at h
    have hnow : s.joined i = false := by
      cases hb : s.joined i with
      | false => rfl
      | true => rw [s.mutexPassedBy_of_joined hb] at hp; cases hp
    refine ⟨hnow, hp, ?_⟩
    rcases hi with hj | hw
    · rw [hnow] at hj; cases hj
    · exact hw

/-- Worked case of `timedjoin_completed_takes_priority`: the first wait returns `ETIMEDOUT` and
the waiter has already set `joined`; the function returns 0. -/
theorem timedjoin_completed_takes_priority_witness :
    pthread_timedjoin_np ⟨0, fun _ => ETIMEDOUT, some 0, 0, false⟩ 1
      = some (JoinEnd.returns 0) := by
  obtain ⟨i, hik, _, hset, _, _⟩ :=
    timedjoin_completed_takes_priority ⟨0, fun _ => ETIMEDOUT, some 0, 0, false⟩ 0 rfl
      (Or.inl rfl)
  have hi : i = 0 := by omega
  subst hi
  exact hset rfl 1 (by decide)

end Autograder

namespace stylecheck

/-! ## One rule -/

theorem passDecision_iff (lo hi n : Int) : passDecision lo hi n = true ↔ lo ≤ n ∧ n ≤ hi := by
  unfold passDecision
  by_cases h1 : lo > 0 ∧ n ≤ 0
  · rw [if_pos h1]
    constructor
    · intro h; cases h
    · intro h; omega
  · rw [if_neg h1]
    by_cases h2 : hi = 0 ∧ n > 0
    · rw [if_pos h2]
      constructor
      · intro h; cases h
      · intro h; omega
    · rw [if_neg h2]
      by_cases h3 : lo ≤ n ∧ n ≤ hi
      · rw [if_neg (not_not.mpr h3)]
        exact ⟨fun _ => h3, fun _ => rfl⟩
      · rw [if_pos h3]
        constructor
        · intro h; cases h
        · intro h; exact absurd h h3

theorem patternMinCount_eq_specRange (patternNode : PatternNode) :
    patternMinCount patternNode = (specRange patternNode).1 := by
  unfold patternMinCount specRange DEFAULT_MIN_COUNT
  by_cases hc : patternNode.getAttributeInt "count" (-1) = -1 <;> simp [hc]

theorem patternMaxCount_eq_specRange (patternNode : PatternNode) :
    patternMaxCount patternNode = (specRange patternNode).2 := by
  unfold patternMaxCount specRange DEFAULT_MAX_COUNT
  by_cases hc : patternNode.getAttributeInt "count" (-1) = -1 <;> simp [hc]

/-- C9: for every rule, `processPatternNode` returns `true` exactly when the match count lies
in the expected range `minCount <= n <= maxCount`, the range being `[mincount, maxcount]` with
defaults 0 and 999999999 unless a `count` other than -1 is given, which is then both ends; and
for all bounds and counts the decision equals the range test alone, so the two special-case
branches never change it. -/
theorem processPatternNode_iff_in_range (patternNode : PatternNode) :
    (processPatternNode patternNode = true ↔
      (specRange patternNode).1 ≤ matchCount patternNode ∧
        matchCount patternNode ≤ (specRange patternNode).2) ∧
    (∀ lo hi n : Int, passDecision lo hi n = decide (lo ≤ n ∧ n ≤ hi)) := by
  constructor
  · unfold processPatternNode
    rw [passDecision_iff, patternMinCount_eq_specRange, patternMaxCount_eq_specRange]
  · intro lo hi n
    by_cases h : lo ≤ n ∧ n ≤ hi
    · rw [(passDecision_iff lo hi n).mpr h, decide_eq_true h]
    · rw [decide_eq_false h]
      cases hp : passDecision lo hi n with
      | false => rfl
      | true => exact absurd ((passDecision_iff lo hi n).mp hp) h

/-! ## The aggregate -/

/-- The worked rule set: three rules, two of which pass; the one rule inside a category is the
only one after which the counts are published. -/
theorem styleCheck_exampleRuleSet :
    styleCheck true true exampleRuleSet = some ⟨3, 2, [(2, 3)]⟩ := by
  decide

/-- Counters after the loop body has run over a list of rules, in closed form. -/
theorem foldl_directStep_counts (l : List PatternNode) (c : Counts) :
    (l.foldl directStep c).testCount = c.testCount + l.length ∧
      (l.foldl directStep c).passCount = c.passCount + l.countP processPatternNode := by
  induction l generalizing c with
  | nil => simp
  | cons a rest ih =>
    rw [List.foldl_cons]
    obtain ⟨ht, hp⟩ := ih (directStep c a)
    rw [ht, hp]
    by_cases ha : processPatternNode a = true
    · simp only [directStep, ha, if_true, List.length_cons, List.countP_cons_of_pos _ _ ha]
      push_cast
      constructor <;> ring
    · simp only [directStep, ha, List.length_cons, List.countP_cons_of_neg _ _ ha]
      push_cast
      constructor
      · ring
      · simp

theorem categoryStep_counts (c : Counts) (a : PatternNode) :
    (categoryStep c a).testCount = (directStep c a).testCount ∧
      (categoryStep c a).passCount = (directStep c a).passCount := by
  simp [categoryStep]

theorem foldl_categoryStep_counts (l : List PatternNode) (c : Counts) :
    (l.foldl categoryStep c).testCount = c.testCount + l.length ∧
      (l.foldl categoryStep c).passCount = c.passCount + l.countP processPatternNode := by
  induction l generalizing c with
  | nil => simp
  | cons a rest ih =>
    rw [List.foldl_cons]
    obtain ⟨ht, hp⟩ := ih (categoryStep c a)
    obtain ⟨et, ep⟩ := categoryStep_counts c a
    have hd := foldl_directStep_counts [a] c
    simp only [List.foldl_cons, List.foldl_nil] at hd
    rw [ht, hp, et, ep, hd.1, hd.2]
    by_cases ha : processPatternNode a = true
    · simp only [List.length_cons, List.length_nil, List.countP_cons_of_pos _ _ ha,
        List.countP_nil]
      push_cast
      constructor <;> ring
    · simp only [List.length_cons, List.length_nil, List.countP_cons_of_neg _ _ ha,
        List.countP_nil]
      push_cast
      constructor <;> ring

theorem foldl_categories_counts (cats : List CategoryNode) (c : Counts) :
    (cats.foldl (fun c categoryNode => categoryNode.patterns.foldl categoryStep c) c).testCount
        = c.testCount + ((cats.map CategoryNode.patterns).flatten).length ∧
      (cats.foldl (fun c categoryNode => categoryNode.patterns.foldl categoryStep c) c).passCount
        = c.passCount + ((cats.map CategoryNode.patterns).flatten).countP processPatternNode := by
  induction cats generalizing c with
  | nil => simp
  | cons a rest ih =>
    rw [List.foldl_cons]
    obtain ⟨ht, hp⟩ := ih (a.patterns.foldl categoryStep c)
    obtain ⟨et, ep⟩ := foldl_categoryStep_counts a.patterns c
    rw [ht, hp, et, ep]
    simp only [List.map_cons, List.flatten_cons, List.length_append, List.countP_append]
    push_cast
    constructor <;> ring

/-- C10: for every rule set (both files present, so that the summary line is reached), the
summary of `styleCheck` reports `N` equal to the number of pattern rules, those directly under
`stylecheck` and those inside its categories together, and `P` equal to the number of those
rules for which `processPatternNode` returned `true`, with `0 <= P <= N`. -/
theorem styleCheck_summary_counts (styleCheckNode : StyleCheckNode) :
    ∃ c : Counts, styleCheck true true styleCheckNode = some c ∧
      c.testCount = (styleCheckNode.patterns.length
        + (styleCheckNode.categories.map (fun cat => cat.patterns.length)).sum : Nat) ∧
      c.testCount = ((allPatterns styleCheckNode).length : Nat) ∧
      c.passCount = ((allPatterns styleCheckNode).countP processPatternNode : Nat) ∧
      0 ≤ c.passCount ∧ c.passCount ≤ c.testCount := by
  refine ⟨_, rfl, ?_⟩
  obtain ⟨ht, hp⟩ := foldl_categories_counts styleCheckNode.categories
    (styleCheckNode.patterns.foldl directStep ⟨0, 0, []⟩)
  obtain ⟨et, ep⟩ := foldl_directStep_counts styleCheckNode.patterns ⟨0, 0, []⟩
  have hN : ((allPatterns styleCheckNode).length : Int)
      = styleCheckNode.patterns.length
        + ((styleCheckNode.categories.map CategoryNode.patterns).flatten).length := by
    simp [allPatterns]
  have hP : ((allPatterns styleCheckNode).countP processPatternNode : Int)
      = styleCheckNode.patterns.countP processPatternNode
        + ((styleCheckNode.categories.map CategoryNode.patterns).flatten).countP
            processPatternNode := by
    simp [allPatterns]
  have hle := List.countP_le_length processPatternNode (l := allPatterns styleCheckNode)
  have hsum : ((styleCheckNode.categories.map CategoryNode.patterns).flatten).length
      = (styleCheckNode.categories.map (fun cat => cat.patterns.length)).sum := by
    rw [List.length_flatten, List.map_map]
    rfl
  have hT : (styleCheckNode.categories.foldl
        (fun c categoryNode => categoryNode.patterns.foldl categoryStep c)
        (styleCheckNode.patterns.foldl directStep ⟨0, 0, []⟩)).testCount
      = ((allPatterns styleCheckNode).length : Nat) := by
    rw [ht, et, hN]; simp
  have hPc : (styleCheckNode.categories.foldl
        (fun c categoryNode => categoryNode.patterns.foldl categoryStep c)
        (styleCheckNode.patterns.foldl directStep ⟨0, 0, []⟩)).passCount
      = ((allPatterns styleCheckNode).countP processPatternNode : Nat) := by
    rw [hp, ep, hP]; simp
  refine ⟨?_, hT, hPc, ?_, ?_⟩
  · rw [hT]
    simp [allPatterns, hsum]
  · rw [hPc]; exact Int.natCast_nonneg _
  · rw [hPc, hT]; exact_mod_cast hle

end stylecheck

namespace Autograder

/-! ## The result slot under a race -/

theorem ResultSlot.setFailDetails_filled (slot : ResultSlot) (d : UnitTestDetails)
    (hs : slot.details ≠ none) : slot.setFailDetails d = slot := by
  unfold ResultSlot.setFailDetails
  cases hd : slot.details with
  | none => exact absurd hd hs
  | some _ => rfl

theorem replay_filled (log : List Event) (slot : ResultSlot) (hs : slot.details ≠ none) :
    replay slot log = slot := by
  induction log with
  | nil => rfl
  | cons e rest ih =>
    cases e <;> simp only [replay, ih, ResultSlot.setFailDetails_filled slot _ hs]

theorem replay_append (l₁ l₂ : List Event) (slot : ResultSlot) :
    replay slot (l₁ ++ l₂) = replay (replay slot l₁) l₂ := by
  induction l₁ generalizing slot with
  | nil => rfl
  | cons e rest ih => cases e <;> simp [replay, ih]

/-- On an empty slot a log leaves the details of its first `setFailDetails` call, written
once, or nothing when it has no such call. -/
theorem replay_emptySlot (log : List Event) :
    replay emptySlot log
      = match failDetails log with
        | [] => emptySlot
        | d :: _ => ⟨some d, 1⟩ := by
  induction log with
  | nil => rfl
  | cons e rest ih =>
    cases e with
    | setFailDetails d =>
      simp only [replay, failDetails]
      exact replay_filled rest _ (by simp [emptySlot, ResultSlot.setFailDetails])
    | _ => simpa only [replay, failDetails] using ih

theorem mem_failDetails (log : List Event) (d : UnitTestDetails) :
    d ∈ failDetails log ↔ Event.setFailDetails d ∈ log := by
  induction log with
  | nil => simp [failDetails]
  | cons e rest ih => cases e <;> simp [failDetails, ih]

theorem mem_interleave (e : Event) (sched : List Bool) (xs ys : List Event) :
    e ∈ interleave sched xs ys ↔ e ∈ xs ∨ e ∈ ys := by
  induction sched generalizing xs ys with
  | nil => cases xs <;> cases ys <;> simp [interleave, or_assoc]
  | cons b s ih =>
    cases xs with
    | nil => simp [interleave]
    | cons x xs =>
      cases ys with
      | nil => simp [interleave]
      | cons y ys =>
        cases b
        · simp only [interleave, List.mem_cons, ih]
          tauto
        · simp only [interleave, List.mem_cons, ih]
          tauto

/-- In a timed run whose join reports `ETIMEDOUT`, the caller calls `setFailDetails` with the
timeout failure, whatever the thread does. -/
theorem timeout_write_in_raceLog (h : Helpers) (w : World) (test : AutograderTest)
    (sched : List Bool) (hT : 0 < test.getTestTimeout)
    (hJoin : w.joinResult (timeToWait w.now test.getTestTimeout) = ETIMEDOUT) :
    (⟨UnitTestType.TEST_FAIL, TIMEOUT_ERROR_MESSAGE⟩ : UnitTestDetails)
      ∈ failDetails (raceLog h w test sched) := by
  rw [mem_failDetails, raceLog, mem_interleave, runTestWithTimeout_timedOut h w test hT hJoin]
  left
  simp

/-- C11: for every timed run and every order in which the events of the caller and of the
thread reach the write-once result slot, the slot is written at most once and holds the details
of the first `setFailDetails` call; once it is filled, nothing that follows changes it, so a
second writer is a no-op. When the join reports `ETIMEDOUT` the slot is written exactly once,
with the timeout failure or with details the thread recorded first (the body or
`failWithException`), whichever call came first. -/
theorem failure_details_written_once (h : Helpers) (w : World) (test : AutograderTest)
    (sched : List Bool) (hT : 0 < test.getTestTimeout) :
    (slotAfter h w test sched).writes ≤ 1 ∧
      (slotAfter h w test sched).details = (failDetails (raceLog h w test sched)).head? ∧
      (∀ pre post, raceLog h w test sched = pre ++ post →
        (replay emptySlot pre).details ≠ none →
        slotAfter h w test sched = replay emptySlot pre) ∧
      (w.joinResult (timeToWait w.now test.getTestTimeout) = ETIMEDOUT →
        (slotAfter h w test sched).writes = 1 ∧
        ((slotAfter h w test sched).details
            = some ⟨UnitTestType.TEST_FAIL, TIMEOUT_ERROR_MESSAGE⟩ ∨
          ∃ d, Event.setFailDetails d ∈ (runTestWithTimeout h w test).threadLog ∧
            (slotAfter h w test sched).details = some d)) := by
  have hslot := replay_emptySlot (raceLog h w test sched)
  refine ⟨?_, ?_, ?_, ?_⟩
  · unfold slotAfter
    rw [hslot]
    cases failDetails (raceLog h w test sched) <;> simp [emptySlot]
  · unfold slotAfter
    rw [hslot]
    cases failDetails (raceLog h w test sched) <;> simp [emptySlot]
  · intro pre post hsplit hfilled
    unfold slotAfter
    rw [hsplit, replay_append, replay_filled post _ hfilled]
  · intro hJoin
    have hmem := timeout_write_in_raceLog h w test sched hT hJoin
    cases hfd : failDetails (raceLog h w test sched) with
    | nil => rw [hfd] at hmem; cases hmem
    | cons d rest =>
      have hd : Event.setFailDetails d ∈ raceLog h w test sched := by
        rw [← mem_failDetails, hfd]; exact List.mem_cons_self d rest
      unfold slotAfter
      rw [hslot, hfd]
      refine ⟨rfl, ?_⟩
      rw [raceLog, mem_interleave] at hd
      rcases hd with hc | ht
      · left
        rw [runTestWithTimeout_timedOut h w test hT hJoin] at hc
        simp at hc
        rw [hc]
      · right
        exact ⟨d, ht, rfl⟩

/-- Worked case of `failure_details_written_once`: the body throws 42 and the join reports
`ETIMEDOUT` while the thread still records its failure. If the thread records first, the slot
keeps the exception failure; if the caller records first, it keeps the timeout failure; either
way it is written once. -/
theorem failure_details_written_once_witness :
    0 < testThrowsIntTimed.getTestTimeout ∧
      (slotAfter exampleHelpers worldRace testThrowsIntTimed [true, false, false, false]).writes
        = 1 ∧
      (slotAfter exampleHelpers worldRace testThrowsIntTimed [true, false, false, false]).details
        = some ⟨UnitTestType.TEST_EXCEPTION,
            "An int exception was thrown during test execution:\n42\n"⟩ ∧
      (slotAfter exampleHelpers worldRace testThrowsIntTimed [true, true, true]).details
        = some ⟨UnitTestType.TEST_FAIL, "test timed out! possible infinite loop"⟩ :=
  ⟨by decide,
    ((failure_details_written_once exampleHelpers worldRace testThrowsIntTimed
      [true, false, false, false] (by decide)).2.2.2 (by decide)).1,
    by decide, by decide⟩

end Autograder

namespace stylecheck

/-! ## What `styleCheck` publishes -/

theorem foldl_directStep_published (l : List PatternNode) (c : Counts) :
    (l.foldl directStep c).published = c.published := by
  induction l generalizing c with
  | nil => rfl
  | cons a rest ih =>
    rw [List.foldl_cons, ih]
    unfold directStep
    by_cases ha : processPatternNode a = true <;> simp [ha]

theorem categoryStep_last_published (c : Counts) (a : PatternNode) :
    (categoryStep c a).published.getLast?
      = some ((categoryStep c a).passCount, (categoryStep c a).testCount) := by
  simp [categoryStep]

theorem foldl_categoryStep_last_published (l : List PatternNode) (c : Counts)
    (hc : l ≠ [] ∨ c.published.getLast? = some (c.passCount, c.testCount)) :
    (l.foldl categoryStep c).published.getLast?
      = some ((l.foldl categoryStep c).passCount, (l.foldl categoryStep c).testCount) := by
  induction l generalizing c with
  | nil =>
    rcases hc with hne | hinv
    · exact absurd rfl hne
    · exact hinv
  | cons a rest ih =>
    rw [List.foldl_cons]
    exact ih _ (Or.inr (categoryStep_last_published c a))

theorem foldl_categories_last_published (cats : List CategoryNode) (c : Counts)
    (hc : (∃ cat ∈ cats, cat.patterns ≠ [])
      ∨ c.published.getLast? = some (c.passCount, c.testCount)) :
    (cats.foldl (fun c categoryNode => categoryNode.patterns.foldl categoryStep c)
        c).published.getLast?
      = some
        ((cats.foldl (fun c categoryNode => categoryNode.patterns.foldl categoryStep c)
            c).passCount,
          (cats.foldl (fun c categoryNode => categoryNode.patterns.foldl categoryStep c)
            c).testCount) := by
  induction cats generalizing c with
  | nil =>
    rcases hc with ⟨cat, hmem, _⟩ | hinv
    · cases hmem
    · exact hinv
  | cons a rest ih =>
    rw [List.foldl_cons]
    apply ih
    by_cases ha : a.patterns = []
    · rcases hc with ⟨cat, hmem, hne⟩ | hinv
      · rcases List.mem_cons.mp hmem with rfl | hrest
        · exact absurd ha hne
        · exact Or.inl ⟨cat, hrest, hne⟩
      · right
        rw [ha]
        exact hinv
    · exact Or.inr (foldl_categoryStep_last_published a.patterns c (Or.inl ha))

theorem foldl_categories_published_of_empty (cats : List CategoryNode) (c : Counts)
    (hc : ∀ cat ∈ cats, cat.patterns = []) :
    cats.foldl (fun c categoryNode => categoryNode.patterns.foldl categoryStep c) c = c := by
  induction cats generalizing c with
  | nil => rfl
  | cons a rest ih =>
    rw [List.foldl_cons, hc a (List.mem_cons_self a rest)]
    exact ih c (fun cat hmem => hc cat (List.mem_cons_of_mem a hmem))

/-- What the code does about publishing: when some category holds a rule, the last
`setTestCounts` call carries the counts of the summary line; when no category holds a rule,
`setTestCounts` is never called, however many rules sit directly under `stylecheck`. -/
theorem styleCheck_published (styleCheckNode : StyleCheckNode) :
    ∃ c : Counts, styleCheck true true styleCheckNode = some c ∧
      ((∃ cat ∈ styleCheckNode.categories, cat.patterns ≠ []) →
        c.published.getLast? = some (c.passCount, c.testCount)) ∧
      ((∀ cat ∈ styleCheckNode.categories, cat.patterns = []) → c.published = []) := by
  refine ⟨_, rfl, ?_, ?_⟩
  · intro hcat
    exact foldl_categories_last_published _ _ (Or.inl hcat)
  · intro hnone
    rw [foldl_categories_published_of_empty _ _ hnone, foldl_directStep_published]

/-- C12, evaluated at a rule set with one rule directly under `stylecheck` and no category:
the summary line reads "passed 1 of 1 checks", yet `setTestCounts` was never called, so there
are no published counts to agree with it. -/
theorem direct_rules_are_never_published :
    (allPatterns directOnlyRuleSet).length = 1 ∧
      styleCheck true true directOnlyRuleSet = some ⟨1, 1, []⟩ ∧
      (∀ c : Counts, styleCheck true true directOnlyRuleSet = some c →
        c.published.getLast? = none ∧
          c.published.getLast? ≠ some (c.passCount, c.testCount)) := by
  refine ⟨by decide, by decide, ?_⟩
  intro c hc
  have e : styleCheck true true directOnlyRuleSet = some ⟨1, 1, []⟩ := by decide
  rw [e] at hc
  injection hc with hc
  subst hc
  exact ⟨rfl, by simp⟩

end stylecheck
